import Mathlib

/-!
# A shallow embedding of `src/firestore-test-utils.ts`

This file models the in-memory Firestore mock (`createFirestoreMock`) in Lean 4
and proves properties of its query evaluation, document mutation, batch commit,
path resolution and handle memoization.

Modelling conventions:
* JavaScript values that appear in stored documents and in filter arguments are
  modelled by the inductive type `JsValue`.  Numbers are modelled as `Int`
  (the repository only ever stores and compares integral numbers; IEEE floats,
  `NaN` and `-0` are outside the modelled universe).
* JavaScript objects are modelled as insertion-ordered association lists
  (`DocFields`), matching `Object.entries` enumeration order for the string
  keys the mock uses.
* Mock `Timestamp` objects (which carry `_seconds`, `_nanoseconds` and a live
  `toDate` closure) are the `vTimestamp` constructor; native `Date` objects are
  `vDate` with their millisecond instant.
* Strict equality `===` on two JS objects (arrays, plain objects, dates,
  timestamps) is reference equality.  A document's stored values and a filter's
  comparison values never alias each other (the seed is deep-cloned on entry),
  so object-to-object strict equality is modelled as `false`.
* `new Date(string)` parsing inside the filter's `toDate` helper is
  host-dependent; the claims' value universe contains no date strings, so in
  this model a string is never converted to a date.
* `ToPrimitive` coercion of arrays in relational comparisons is not modelled
  (such comparisons yield `false` here); plain objects and the mock timestamp
  coerce to a non-numeric string in the source, hence `NaN`, hence every
  relational comparison on them is `false` — which the model reproduces.
-/

namespace FirestoreMock

/-- A JavaScript value as stored in the mock database or passed to `where`. -/
inductive JsValue where
  | vNum (n : Int)
  | vStr (s : String)
  | vBool (b : Bool)
  | vNull
  | vUndefined
  | vDate (ms : Int)
  | vTimestamp (seconds : Int) (nanos : Int)
  | vArr (elems : List JsValue)
  | vObj (fields : List (String × JsValue))
deriving Repr, BEq

/-- Document fields: a JS object, an insertion-ordered association list. -/
abbrev DocFields := List (String × JsValue)

/-- First-binding association-list lookup (JS objects never hold a key
twice, so the first binding is the binding). -/
def assocLookup : List (String × α) → String → Option α
  | [], _ => none
  | p :: ps, k => if p.1 == k then some p.2 else assocLookup ps k

/-- Whether an association list binds a key. -/
def assocContains (l : List (String × α)) (k : String) : Bool :=
  l.any (fun p => p.1 == k)

/-- Property read `o[k]`: a missing key is `undefined`. -/
def objGet (o : DocFields) (k : String) : JsValue :=
  match assocLookup o k with
  | some v => v
  | none => .vUndefined

/-- `k in o`: whether the object has an own property named `k`. -/
def objContains (o : DocFields) (k : String) : Bool :=
  assocContains o k

/-- JS object spread `{...a, ...b}`: `a`'s keys keep their position but take
`b`'s value when `b` also has the key; `b`'s new keys are appended in order. -/
def objSpread (a b : DocFields) : DocFields :=
  a.map (fun p => if objContains b p.1 then (p.1, objGet b p.1) else p) ++
    b.filter (fun p => !objContains a p.1)

/-- Rest destructuring `const { id, ...rest } = o` restricted to dropping one
key: every binding whose key is `k` is removed. -/
def objRemove (o : DocFields) (k : String) : DocFields :=
  o.filter (fun p => p.1 != k)

/-- The combined object `{ id, ...data }` built for each entry of
`Object.entries(collectionData)` in the query's `get()` (source line 131). -/
def mkDocObj (id : String) (data : DocFields) : DocFields :=
  objSpread [("id", .vStr id)] data

/-- `toMillis` of a mock timestamp: `_seconds * 1000 + _nanoseconds / 1e6`.
Integer division truncates; the source computes in floats and the resulting
`Date` truncates the instant, which agrees for the non-negative instants the
mock constructs. -/
def tsToMillis (seconds nanos : Int) : Int :=
  seconds * 1000 + nanos / 1000000

/-- JS falsiness of a modelled value (`!val`). -/
def isFalsy : JsValue → Bool
  | .vNum n => n == 0
  | .vStr s => s == ""
  | .vBool b => !b
  | .vNull => true
  | .vUndefined => true
  | _ => false

/-- The filter's `toDate` helper (source lines 136-150): falsy values pass
through; dates pass through; a value with a `toDate` method (the mock
timestamp) is converted by calling it; an object carrying `_seconds` (and
optionally `_nanoseconds`) is rebuilt into a date; everything else passes
through unchanged.  String parsing by `new Date(string)` is host-dependent and
outside the modelled universe (see the file header). -/
def toDate (v : JsValue) : JsValue :=
  if isFalsy v then v
  else
    match v with
    | .vDate ms => .vDate ms
    | .vTimestamp s ns => .vDate (tsToMillis s ns)
    | .vObj fields =>
      match objGet fields "_seconds" with
      | .vNum s =>
        let ns : Int :=
          match objGet fields "_nanoseconds" with
          | .vNum n => n
          | _ => 0
        .vDate (s * 1000 + ns / 1000000)
      | _ => .vObj fields
    | other => other

/-- `instanceof Date` after conversion. -/
def isVDate : JsValue → Bool
  | .vDate _ => true
  | _ => false

/-- `getTime()` of a converted date (only ever applied to `vDate`). -/
def dateMs : JsValue → Int
  | .vDate ms => ms
  | _ => 0

/-- JS strict equality `===` on the modelled universe.  Primitives compare
structurally; values of different types are unequal; objects (arrays, plain
objects, dates, timestamps) compare by reference, and stored values never
alias filter arguments, so those comparisons are `false`. -/
def jsStrictEq : JsValue → JsValue → Bool
  | .vNum a, .vNum b => a == b
  | .vStr a, .vStr b => a == b
  | .vBool a, .vBool b => a == b
  | .vNull, .vNull => true
  | .vUndefined, .vUndefined => true
  | _, _ => false

/-- `Number(s)` restricted to the canonical integer strings the mock ever
meets: the empty string is `0`, an optional sign followed by digits is that
integer, anything else is `NaN` (`none`).  Whitespace trimming, hex, floats
and exponents are outside the modelled universe. -/
def strToNum (s : String) : Option Int :=
  if s = "" then some 0
  else if s.front = '-' then
    let rest := s.drop 1
    if rest ≠ "" ∧ rest.all Char.isDigit then some (-(rest.toNat!)) else none
  else if s.all Char.isDigit then some (s.toNat! : Int) else none

/-- `ToNumber` of a modelled value, `none` meaning `NaN`. -/
def jsToNum : JsValue → Option Int
  | .vNum n => some n
  | .vBool b => some (if b then 1 else 0)
  | .vNull => some 0
  | .vDate ms => some ms
  | .vStr s => strToNum s
  | _ => none

/-- The abstract relational comparison used by `<`, `>`, `<=`, `>=` on raw
values: two strings compare lexicographically, otherwise both sides are
coerced to numbers and compared; `none` means a `NaN` was involved and every
relational outcome is `false`. -/
def jsPrimCompare : JsValue → JsValue → Option Ordering
  | .vStr a, .vStr b => some (compare a b)
  | a, b =>
    match jsToNum a, jsToNum b with
    | some m, some n => some (compare m n)
    | _, _ => none

/-- JS `a < b` on raw values. -/
def jsLtRaw (a b : JsValue) : Bool :=
  jsPrimCompare a b == some .lt

/-- JS `a > b` on raw values. -/
def jsGtRaw (a b : JsValue) : Bool :=
  jsPrimCompare a b == some .gt

/-- JS `a <= b` on raw values. -/
def jsLeRaw (a b : JsValue) : Bool :=
  jsPrimCompare a b == some .lt || jsPrimCompare a b == some .eq

/-- JS `a >= b` on raw values. -/
def jsGeRaw (a b : JsValue) : Bool :=
  jsPrimCompare a b == some .gt || jsPrimCompare a b == some .eq

/-- `Array.prototype.includes` membership test (SameValueZero; without `NaN`
and `-0` in the universe this coincides with strict equality). -/
def jsIncludes (xs : List JsValue) (v : JsValue) : Bool :=
  xs.any (fun x => jsStrictEq x v)

/-- One `where(field, op, value)` directive. -/
structure Filter where
  field : String
  op : String
  value : JsValue
deriving Repr

/-- One `orderBy(field, direction)` directive. -/
structure OrderByDirective where
  field : String
  direction : String
deriving Repr

/-- The query chain state accumulated by `createQueryChain` (source line 113):
chained filters, an optional limit and an optional ordering directive. -/
structure QueryOptions where
  filters : List Filter
  limit : Option Int
  orderBy : Option OrderByDirective
deriving Repr

/-- Whether one document (as its combined `{id, ...data}` object) satisfies a
filter — the predicate of source lines 135-181.  Field `__name__` reads the
combined object's `id` property.  When both converted values are dates the
dedicated date switch runs (note it has no `!=` case: its `default` drops the
document); otherwise the raw-value switch runs, and an operator recognized by
neither switch matches nothing. -/
def evalFilter (doc : DocFields) (f : Filter) : Bool :=
  let docValue := if f.field == "__name__" then objGet doc "id" else objGet doc f.field
  let comparableDocValue := toDate docValue
  let comparableValue := toDate f.value
  if isVDate comparableDocValue && isVDate comparableValue then
    if f.op == "==" then dateMs comparableDocValue == dateMs comparableValue
    else if f.op == ">=" then dateMs comparableDocValue ≥ dateMs comparableValue
    else if f.op == "<=" then dateMs comparableDocValue ≤ dateMs comparableValue
    else if f.op == ">" then dateMs comparableDocValue > dateMs comparableValue
    else if f.op == "<" then dateMs comparableDocValue < dateMs comparableValue
    else false
  else
    if f.op == "==" then jsStrictEq docValue f.value
    else if f.op == "!=" then !jsStrictEq docValue f.value
    else if f.op == ">" then jsGtRaw docValue f.value
    else if f.op == ">=" then jsGeRaw docValue f.value
    else if f.op == "<" then jsLtRaw docValue f.value
    else if f.op == "<=" then jsLeRaw docValue f.value
    else if f.op == "in" then
      match f.value with
      | .vArr xs => jsIncludes xs docValue
      | _ => false
    else if f.op == "not-in" then
      match f.value with
      | .vArr xs => !jsIncludes xs docValue
      | _ => true
    else if f.op == "array-contains" then
      match docValue with
      | .vArr xs => jsIncludes xs f.value
      | _ => false
    else if f.op == "array-contains-any" then
      match docValue, f.value with
      | .vArr xs, .vArr vs => vs.any (fun v => jsIncludes xs v)
      | _, _ => false
    else false

/-- The `orderBy` comparator of source lines 185-192 on two combined document
objects: read the named field from both, flip the sign for `'desc'`. -/
def orderCmp (ob : OrderByDirective) (a b : DocFields) : Int :=
  let valA := objGet a ob.field
  let valB := objGet b ob.field
  let ord : Int := if ob.direction == "desc" then -1 else 1
  if jsLtRaw valA valB then -1 * ord
  else if jsGtRaw valA valB then 1 * ord
  else 0

/-- Insert into an already sorted list, keeping the inserted element before
every element it compares equal to that originally came later (stability). -/
def sortInsert (cmp : DocFields → DocFields → Int) (x : DocFields) :
    List DocFields → List DocFields
  | [] => [x]
  | y :: ys => if cmp x y ≤ 0 then x :: y :: ys else y :: sortInsert cmp x ys

/-- Stable sort by a JS comparator.  ECMAScript mandates `Array.prototype.sort`
be stable; for a consistent comparator the stable sorted permutation is unique
and this insertion sort produces it. -/
def stableSortBy (cmp : DocFields → DocFields → Int) : List DocFields → List DocFields
  | [] => []
  | x :: xs => sortInsert cmp x (stableSortBy cmp xs)

/-- `allDocs.slice(0, n)` (source line 196): a negative end counts back from
the end of the array, otherwise it clamps to the length. -/
def jsSlice0 (n : Int) (l : List α) : List α :=
  let len : Int := l.length
  let e : Int := if n < 0 then max (len + n) 0 else min n len
  l.take e.toNat

/-- Split a character list at every occurrence of a separator character.  An
empty input yields one empty group, matching `"".split('/')` → `[""]`. -/
def splitCharList (sep : Char) : List Char → List (List Char)
  | [] => [[]]
  | c :: cs =>
    let r := splitCharList sep cs
    if c == sep then [] :: r
    else
      match r with
      | g :: gs => (c :: g) :: gs
      | [] => [[c]]

/-- JS `path.split('/')` for the single-character separator the mock uses. -/
def splitSlash (s : String) : List String :=
  (splitCharList '/' s.toList).map (fun cs => String.mk cs)

/-- One collection bucket: document id → fields, in insertion order, matching
`Object.entries` enumeration order for the mock's string ids. -/
abbrev CollectionData := List (String × DocFields)

/-- The mock database `dbData`: collection path → collection bucket. -/
abbrev Store := List (String × CollectionData)

/-- `dbData[collectionPath] || {}` (source line 130). -/
def storeGetCollection (st : Store) (cp : String) : CollectionData :=
  (assocLookup st cp).getD []

/-- `dbData[collectionPath]?.[docId]`. -/
def storeGetDoc (st : Store) (cp id : String) : Option DocFields :=
  (assocLookup st cp).bind (fun c => assocLookup c id)

/-- JS property assignment on an association list: an existing key keeps its
position and takes the new value, a new key is appended. -/
def assocSet (l : List (String × α)) (k : String) (v : α) : List (String × α) :=
  if assocContains l k then
    l.map (fun p => if p.1 == k then (k, v) else p)
  else l ++ [(k, v)]

/-- `if (!dbData[cp]) dbData[cp] = {}` — the ensure-bucket step before a first
write (a present bucket is an object, hence truthy, and is kept). -/
def storeEnsureCollection (st : Store) (cp : String) : Store :=
  if assocContains st cp then st else st ++ [(cp, [])]

/-- Rewrite the bucket stored under one collection path, leaving every other
binding untouched (the shape of an in-place JS mutation of `dbData[cp]`). -/
def storeModifyAt (st : Store) (cp : String) (g : CollectionData → CollectionData) : Store :=
  st.map (fun p => if p.1 == cp then (p.1, g p.2) else p)

/-- `dbData[cp][id] = data`, with the bucket created if missing. -/
def storeSetDoc (st : Store) (cp id : String) (data : DocFields) : Store :=
  storeModifyAt (storeEnsureCollection st cp) cp (fun c => assocSet c id data)

/-- `if (dbData[cp]?.[id]) delete dbData[cp][id]` — documents are objects and
hence truthy, so this removes the binding whenever it is present. -/
def storeDeleteDoc (st : Store) (cp id : String) : Store :=
  storeModifyAt st cp (fun c => c.filter (fun q => q.1 != id))

/-- `set` on a document handle (source lines 253-268): full replace, or a
shallow merge over the existing document when `options.merge` is set and the
document is present (a stored document is always an object, so the source's
`typeof … === 'object'` test is exactly presence here; the payload is an
object by the `DocumentData` type). -/
def docSet (st : Store) (cp id : String) (data : DocFields) (merge : Bool) : Store :=
  let st1 := storeEnsureCollection st cp
  if merge then
    match storeGetDoc st1 cp id with
    | some existing => storeSetDoc st1 cp id (objSpread existing data)
    | none => storeSetDoc st1 cp id data
  else storeSetDoc st1 cp id data

/-- `update` on a document handle (source lines 269-275): shallow merge only
when the document exists, otherwise a silent no-op. -/
def docUpdate (st : Store) (cp id : String) (data : DocFields) : Store :=
  match storeGetDoc st cp id with
  | some existing => storeSetDoc st cp id (objSpread existing data)
  | none => st

/-- `delete` on a document handle (source lines 276-281). -/
def docDelete (st : Store) (cp id : String) : Store :=
  storeDeleteDoc st cp id

/-- The state of one mock instance: the database plus the `docMocks`
memoization registry.  JS object identity of handles is modelled by a numeric
token — `getDocMock` allocates a fresh token on the first request for a path
and returns the stored token afterwards, exactly as the source's `docMocks`
map returns the same object instance (source lines 242-291). -/
structure MockState where
  dbData : Store
  docMocks : List (String × Nat)
  nextHandle : Nat
deriving Repr

/-- `getDocMock(collectionPath, docId)` — memoized handle lookup/creation. -/
def getDocMock (ms : MockState) (cp id : String) : Nat × MockState :=
  let path := cp ++ "/" ++ id
  match assocLookup ms.docMocks path with
  | some h => (h, ms)
  | none =>
    (ms.nextHandle,
      ⟨ms.dbData, ms.docMocks ++ [(path, ms.nextHandle)], ms.nextHandle + 1⟩)

/-- `collection(cp).doc(id)` with an explicit id (source lines 221-224); the
auto-generated-id branch draws fresh randomness and is outside the claims. -/
def collectionDoc (ms : MockState) (cp id : String) : Nat × MockState :=
  getDocMock ms cp id

/-- `handle.collection(sub)` (source lines 282-285): the child collection's
path is the handle's own path joined with the subcollection name. -/
def subCollectionPath (cp id sub : String) : String :=
  (cp ++ "/" ++ id) ++ "/" ++ sub

/-- JS string coercion as used by the template literal in `getDocMock`.  Only
string ids occur in practice; numbers and the other primitives follow JS, the
string form of a date is host-specific and represented by a placeholder, the
comma-joining of arrays is likewise not modelled, and plain objects and mock
timestamps stringify to "[object Object]". -/
def jsToStr : JsValue → String
  | .vStr s => s
  | .vNum n => toString n
  | .vBool b => if b then "true" else "false"
  | .vNull => "null"
  | .vUndefined => "undefined"
  | .vDate ms => "[Date " ++ toString ms ++ "]"
  | .vTimestamp _ _ => "[object Object]"
  | .vArr _ => "[Array]"
  | .vObj _ => "[object Object]"

/-- One element of a query snapshot's `docs` (source lines 199-207).  Its
`data` is the materialized `rest` object computed when the snapshot was built
(the closure returns the captured `rest`, so it is a plain value here), and
`ref` is the memoized handle for the entry's id. -/
structure QueryEntry where
  id : JsValue
  data : DocFields
  exists_ : Bool
  ref : Nat
deriving Repr

/-- The query snapshot (source lines 209-214).  Its `forEach` visits `docs`
in order and carries no further state, so it is not modelled separately. -/
structure QuerySnapshot where
  docs : List QueryEntry
  size : Nat
  empty : Bool
deriving Repr

/-- Build the snapshot entries (source lines 199-207), threading the handle
registry: each entry destructures `{ id, ...rest }` from its combined object
and obtains `ref` through `getDocMock`. -/
def buildEntries (cp : String) : MockState → List DocFields → List QueryEntry × MockState
  | ms, [] => ([], ms)
  | ms, doc :: rest =>
    let idVal := objGet doc "id"
    let pr := getDocMock ms cp (jsToStr idVal)
    let prs := buildEntries cp pr.2 rest
    (⟨idVal, objRemove doc "id", true, pr.1⟩ :: prs.1, prs.2)

/-- One pass of the `filters.forEach` loop (source lines 134-182): keep the
documents satisfying the filter. -/
def filterStep (docs : List DocFields) (f : Filter) : List DocFields :=
  docs.filter (fun d => evalFilter d f)

/-- The query chain's terminal `get()` (source lines 129-215): load the
bucket, apply every filter in chain order, then sort if an ordering directive
is present, then slice if a limit is present, then build the snapshot. -/
def evalQueryGet (ms : MockState) (cp : String) (q : QueryOptions) :
    QuerySnapshot × MockState :=
  let collectionData := storeGetCollection ms.dbData cp
  let allDocs := collectionData.map (fun p => mkDocObj p.1 p.2)
  let filtered := q.filters.foldl filterStep allDocs
  let sorted :=
    match q.orderBy with
    | some ob => stableSortBy (orderCmp ob) filtered
    | none => filtered
  let limited :=
    match q.limit with
    | some n => jsSlice0 n sorted
    | none => sorted
  let pr := buildEntries cp ms limited
  (⟨pr.1, pr.1.length, pr.1.length == 0⟩, pr.2)

/-- A document handle's `get()` snapshot (source lines 247-252).  `exists` is
computed eagerly when `get()` runs, but `data` is the closure
`() => dbData[collectionPath]?.[docId]`, which re-reads the store when it is
invoked — the snapshot therefore records the captured address, and
`snapData` evaluates the closure against a store. -/
structure DocSnapshot where
  id : String
  exists_ : Bool
  dataCollectionPath : String
  dataDocId : String
  ref : Nat
deriving Repr

/-- Invoking the snapshot's `data()` closure against the store current at the
time of the call. -/
def snapData (s : DocSnapshot) (st : Store) : Option DocFields :=
  storeGetDoc st s.dataCollectionPath s.dataDocId

/-- `get()` on a document handle. -/
def docGet (ms : MockState) (cp id : String) : DocSnapshot × MockState :=
  let pr := getDocMock ms cp id
  (⟨id, (storeGetDoc ms.dbData cp id).isSome, cp, id, pr.1⟩, pr.2)

/-- One queued batch intent; `refPath` is the `path` property of the handle
the intent was enqueued with (source lines 62-74). -/
inductive BatchOp where
  | bset (refPath : String) (data : DocFields) (merge : Bool)
  | bupdate (refPath : String) (data : DocFields)
  | bdelete (refPath : String)
deriving Repr

/-- The handle path an intent targets. -/
def batchOpPath : BatchOp → String
  | .bset p _ _ => p
  | .bupdate p _ => p
  | .bdelete p => p

/-- `commit()`'s treatment of one intent (source lines 76-99): the target is
re-derived by splitting the handle's path on `/` and taking only the first
two segments.  `update` uses `Object.assign` on the existing document, which
coincides with the shallow-merge spread at the value level; a merge `set`
spreads over `dbData[cp]?.[docId] || {}`. -/
def applyBatchOp (st : Store) (op : BatchOp) : Store :=
  let parts := splitSlash (batchOpPath op)
  let cp := (parts.get? 0).getD ""
  let id := (parts.get? 1).getD "undefined"
  match op with
  | .bdelete _ => storeDeleteDoc st cp id
  | .bupdate _ data =>
    (match storeGetDoc st cp id with
     | some existing => storeSetDoc st cp id (objSpread existing data)
     | none => st)
  | .bset _ data merge =>
    let st1 := storeEnsureCollection st cp
    if merge then
      storeSetDoc st1 cp id (objSpread ((storeGetDoc st1 cp id).getD []) data)
    else storeSetDoc st1 cp id data

/-- `commit()` applies every queued intent in enqueue order and then clears
the queue; the emptied queue is returned alongside the final store. -/
def batchCommit (st : Store) (ops : List BatchOp) : Store × List BatchOp :=
  (ops.foldl applyBatchOp st, [])

/-- One later mutation of the store, issued through any handle or batch. -/
inductive StoreMutation where
  | mset (cp id : String) (data : DocFields) (merge : Bool)
  | mupdate (cp id : String) (data : DocFields)
  | mdelete (cp id : String)
  | mbatch (ops : List BatchOp)
deriving Repr

/-- Apply one mutation. -/
def applyMutation (st : Store) : StoreMutation → Store
  | .mset cp id data merge => docSet st cp id data merge
  | .mupdate cp id data => docUpdate st cp id data
  | .mdelete cp id => docDelete st cp id
  | .mbatch ops => (batchCommit st ops).1

/-- Apply a sequence of mutations in order. -/
def applyMutations (st : Store) (muts : List StoreMutation) : Store :=
  muts.foldl applyMutation st

/-- Top-level `doc(path)` address resolution (source lines 295-303): split on
`/`; the first part is the collection path and the second the document id;
if either is missing or empty (falsy), throw `Invalid document path` —
modelled as `none`.  Any further segments are ignored. -/
def resolveTopDocPath (path : String) : Option (String × String) :=
  match splitSlash path with
  | c :: d :: _ => if c = "" ∨ d = "" then none else some (c, d)
  | _ => none

/-- Top-level `doc(path)`: resolution followed by memoized handle creation.
The `none` models the synchronous throw: it happens during the call itself,
before any promise-wrapped result is constructed. -/
def docTopLevel (ms : MockState) (path : String) : Option (Nat × MockState) :=
  match resolveTopDocPath path with
  | some pr => some (getDocMock ms pr.1 pr.2)
  | none => none

/-- The operator strings recognized by either switch of the filter predicate
(source lines 157-179). -/
def recognizedOps : List String :=
  ["==", "!=", ">", ">=", "<", "<=", "in", "not-in",
   "array-contains", "array-contains-any"]

/-! ## Association-list lemmas -/

theorem assocLookup_append_left {l l₂ : List (String × α)} {k : String} {v : α}
    (h : assocLookup l k = some v) : assocLookup (l ++ l₂) k = some v := by
  induction l with
  | nil => simp [assocLookup] at h
  | cons p ps ih =>
    simp only [assocLookup, List.cons_append] at h ⊢
    by_cases hk : (p.1 == k) = true
    · simpa [hk] using h
    · simp only [Bool.not_eq_true] at hk
      simp only [hk, Bool.false_eq_true, if_neg, not_false_iff] at h ⊢
      exact ih h

theorem assocLookup_append_right {l l₂ : List (String × α)} {k : String}
    (h : assocLookup l k = none) : assocLookup (l ++ l₂) k = assocLookup l₂ k := by
  induction l with
  | nil => simp
  | cons p ps ih =>
    simp only [assocLookup, List.cons_append] at h ⊢
    by_cases hk : (p.1 == k) = true
    · simp [hk] at h
    · simp only [Bool.not_eq_true] at hk
      simp only [hk, if_neg, Bool.false_eq_true, not_false_iff] at h ⊢
      exact ih h

theorem assocContains_eq_isSome (l : List (String × α)) (k : String) :
    assocContains l k = (assocLookup l k).isSome := by
  induction l with
  | nil => simp [assocContains, assocLookup]
  | cons p ps ih =>
    simp only [assocContains, assocLookup, List.any_cons] at ih ⊢
    by_cases hk : (p.1 == k) = true
    · simp [hk]
    · simp only [Bool.not_eq_true] at hk
      simp [hk, ih]

theorem assocLookup_assocSet_self (l : List (String × α)) (k : String) (v : α) :
    assocLookup (assocSet l k v) k = some v := by
  unfold assocSet
  by_cases hc : assocContains l k = true
  · simp only [hc, if_pos]
    induction l with
    | nil => simp [assocContains] at hc
    | cons p ps ih =>
      by_cases hk : (p.1 == k) = true
      · simp [assocLookup, hk]
      · simp only [Bool.not_eq_true] at hk
        simp only [assocContains, List.any_cons, hk, Bool.false_or] at hc
        simpa [assocLookup, hk] using ih hc
  · simp only [Bool.not_eq_true] at hc
    simp only [hc, Bool.false_eq_true, if_neg, not_false_iff]
    have hnone : assocLookup l k = none := by
      have := assocContains_eq_isSome l k
      rw [hc] at this
      cases h : assocLookup l k with
      | none => rfl
      | some w => rw [h] at this; simp at this
    rw [assocLookup_append_right hnone]
    simp [assocLookup]

theorem assocLookup_eq_none_of_contains_false {l : List (String × α)} {k : String}
    (h : assocContains l k = false) : assocLookup l k = none := by
  have hs := assocContains_eq_isSome l k
  rw [h] at hs
  cases hl : assocLookup l k with
  | none => rfl
  | some w => rw [hl] at hs; simp at hs

/-! ## Store lemmas -/

theorem assocLookup_storeModifyAt (st : Store) (cp : String)
    (g : CollectionData → CollectionData) :
    assocLookup (storeModifyAt st cp g) cp = (assocLookup st cp).map g := by
  unfold storeModifyAt
  induction st with
  | nil => rfl
  | cons p ps ih =>
    simp only [List.map_cons]
    by_cases hk : (p.1 == cp) = true
    · simp [assocLookup, hk]
    · rw [if_neg hk]
      simp only [assocLookup]
      rw [if_neg hk, if_neg hk]
      exact ih

theorem assocLookup_storeModifyAt_ne (st : Store) {cp cp' : String}
    (g : CollectionData → CollectionData) (h : cp' ≠ cp) :
    assocLookup (storeModifyAt st cp g) cp' = assocLookup st cp' := by
  unfold storeModifyAt
  induction st with
  | nil => rfl
  | cons p ps ih =>
    simp only [List.map_cons]
    by_cases hk : (p.1 == cp) = true
    · have hkeq : p.1 = cp := by simpa using hk
      have hne : ¬ ((p.1 == cp') = true) := by simp [hkeq, Ne.symm h]
      rw [if_pos hk]
      simp only [assocLookup]
      rw [if_neg hne, if_neg hne]
      exact ih
    · rw [if_neg hk]
      simp only [assocLookup]
      by_cases hk' : (p.1 == cp') = true
      · rw [if_pos hk', if_pos hk']
      · rw [if_neg hk', if_neg hk']
        exact ih

theorem assocLookup_storeEnsureCollection (st : Store) (cp : String) :
    assocLookup (storeEnsureCollection st cp) cp
      = some ((assocLookup st cp).getD []) := by
  unfold storeEnsureCollection
  by_cases hc : assocContains st cp = true
  · have hs := assocContains_eq_isSome st cp
    rw [hc] at hs
    cases hl : assocLookup st cp with
    | none => rw [hl] at hs; simp at hs
    | some c => simp [hc, hl]
  · simp only [Bool.not_eq_true] at hc
    have hnone := assocLookup_eq_none_of_contains_false hc
    simp only [hc, Bool.false_eq_true, if_neg, not_false_iff]
    rw [assocLookup_append_right hnone, hnone]
    simp [assocLookup]

theorem storeGetDoc_storeSetDoc (st : Store) (cp id : String) (d : DocFields) :
    storeGetDoc (storeSetDoc st cp id d) cp id = some d := by
  unfold storeGetDoc storeSetDoc
  rw [assocLookup_storeModifyAt, assocLookup_storeEnsureCollection]
  simp [assocLookup_assocSet_self]

theorem storeGetDoc_storeEnsureCollection (st : Store) (cp id : String) :
    storeGetDoc (storeEnsureCollection st cp) cp id = storeGetDoc st cp id := by
  unfold storeGetDoc
  rw [assocLookup_storeEnsureCollection]
  cases hl : assocLookup st cp with
  | some c => simp [hl]
  | none => simp [hl, assocLookup]

/-! ## Object (spread / combined-document) lemmas -/

theorem objGet_eq_vUndefined_of_contains_false {o : DocFields} {k : String}
    (h : objContains o k = false) : objGet o k = .vUndefined := by
  unfold objGet
  rw [assocLookup_eq_none_of_contains_false h]

theorem assocLookup_spread_map (a b : DocFields) (k : String) :
    assocLookup
        (a.map (fun p => if objContains b p.1 then (p.1, objGet b p.1) else p)) k
      = (assocLookup a k).map (fun v => if objContains b k then objGet b k else v) := by
  induction a with
  | nil => rfl
  | cons p ps ih =>
    simp only [List.map_cons]
    by_cases hk : (p.1 == k) = true
    · have hkeq : p.1 = k := by simpa using hk
      by_cases hb : objContains b p.1 = true
      · have hb' : objContains b k = true := by rw [← hkeq]; exact hb
        simp [assocLookup, hkeq, hb']
      · have hb' : objContains b k = false := by rw [← hkeq]; simpa using hb
        simp [assocLookup, hkeq, hb']
    · by_cases hb : objContains b p.1 = true
      · rw [if_pos hb]
        simp only [assocLookup]
        rw [if_neg hk, if_neg hk]
        exact ih
      · rw [if_neg hb]
        simp only [assocLookup]
        rw [if_neg hk, if_neg hk]
        exact ih

theorem assocLookup_spread_filter (a b : DocFields) (k : String) :
    assocLookup (b.filter (fun p => !objContains a p.1)) k
      = if objContains a k then none else assocLookup b k := by
  induction b with
  | nil => simp [assocLookup]
  | cons p ps ih =>
    by_cases ha : objContains a p.1 = true
    · have hq : (!objContains a p.1) = false := by simp [ha]
      rw [List.filter_cons_of_neg (by simp [hq]), ih]
      by_cases hak : objContains a k = true
      · simp [hak]
      · have hne : ¬ ((p.1 == k) = true) := by
          intro hkk
          have hkeq : p.1 = k := by simpa using hkk
          rw [hkeq] at ha
          exact hak ha
        have hak' : objContains a k = false := by simpa using hak
        simp only [hak', Bool.false_eq_true, if_neg, not_false_iff, assocLookup]
        rw [if_neg hne]
    · have hq : (!objContains a p.1) = true := by simp [ha]
      rw [List.filter_cons_of_pos (by simp [hq])]
      simp only [assocLookup]
      by_cases hk : (p.1 == k) = true
      · have hkeq : p.1 = k := by simpa using hk
        rw [hkeq] at ha
        have ha' : objContains a k = false := by simpa using ha
        rw [if_pos hk]
        simp only [ha', Bool.false_eq_true, if_neg, not_false_iff, assocLookup]
        rw [if_pos hk]
      · rw [if_neg hk, ih]
        by_cases hak : objContains a k = true
        · simp [hak]
        · have hak' : objContains a k = false := by simpa using hak
          simp only [hak', Bool.false_eq_true, if_neg, not_false_iff, assocLookup]
          rw [if_neg hk]

theorem assocLookup_objSpread (a b : DocFields) (k : String) :
    assocLookup (objSpread a b) k
      = if objContains b k then assocLookup b k else assocLookup a k := by
  unfold objSpread
  cases hla : assocLookup a k with
  | some v =>
    have hmap : assocLookup
        (a.map (fun p => if objContains b p.1 then (p.1, objGet b p.1) else p)) k
        = some (if objContains b k then objGet b k else v) := by
      rw [assocLookup_spread_map, hla]; rfl
    rw [assocLookup_append_left hmap]
    by_cases hb : objContains b k = true
    · have hs := assocContains_eq_isSome b k
      have hb2 : assocContains b k = true := hb
      rw [hb2] at hs
      cases hlb : assocLookup b k with
      | none => rw [hlb] at hs; simp at hs
      | some w =>
        have hw : objGet b k = w := by unfold objGet; rw [hlb]
        simp [hb, hw, hlb]
    · have hb' : objContains b k = false := by simpa using hb
      simp [hb', hla]
  | none =>
    have hca : objContains a k = false := by
      have hs := assocContains_eq_isSome a k
      rw [hla] at hs
      simpa using hs
    have hmap : assocLookup
        (a.map (fun p => if objContains b p.1 then (p.1, objGet b p.1) else p)) k
        = none := by
      rw [assocLookup_spread_map, hla]; rfl
    rw [assocLookup_append_right hmap, assocLookup_spread_filter, hca]
    simp only [Bool.false_eq_true, if_neg, not_false_iff]
    by_cases hb : objContains b k = true
    · simp [hb]
    · have hb' : objContains b k = false := by simpa using hb
      simp [hb', assocLookup_eq_none_of_contains_false hb', hla]

/-- The key law of JS object spread: a key of `{...a, ...b}` reads `b`'s value
when `b` binds the key and `a`'s value otherwise. -/
theorem objGet_objSpread (a b : DocFields) (k : String) :
    objGet (objSpread a b) k
      = if objContains b k then objGet b k else objGet a k := by
  have key := assocLookup_objSpread a b k
  by_cases hb : objContains b k = true
  · rw [if_pos hb] at key ⊢
    unfold objGet
    rw [key]
  · have hb' : objContains b k = false := by simpa using hb
    rw [hb'] at key ⊢
    simp only [Bool.false_eq_true, if_neg, not_false_iff] at key ⊢
    unfold objGet
    rw [key]

/-- Reading any field other than `id` through the combined `{id, ...data}`
object reads the document's own field. -/
theorem objGet_mkDocObj_of_ne (i : String) (A : DocFields) {k : String}
    (h : k ≠ "id") : objGet (mkDocObj i A) k = objGet A k := by
  unfold mkDocObj
  rw [objGet_objSpread]
  by_cases hb : objContains A k = true
  · simp [hb]
  · simp only [Bool.not_eq_true] at hb
    rw [objGet_eq_vUndefined_of_contains_false hb]
    have hne : ("id" == k) = false := by simp [Ne.symm h]
    have hid : objGet [("id", JsValue.vStr i)] k = .vUndefined := by
      simp [objGet, assocLookup, hne]
    simp [hb, hid]

/-- For a document whose fields do not shadow `id`, the combined object's `id`
is the entry's document id. -/
theorem objGet_mkDocObj_id (i : String) {A : DocFields}
    (h : objContains A "id" = false) : objGet (mkDocObj i A) "id" = .vStr i := by
  unfold mkDocObj
  rw [objGet_objSpread, h]
  simp [objGet, assocLookup]

/-! ## Query evaluation lemmas -/

theorem buildEntries_map_id (cp : String) (ms : MockState) (l : List DocFields) :
    ((buildEntries cp ms l).1.map (fun e => e.id)) = l.map (fun d => objGet d "id") := by
  induction l generalizing ms with
  | nil => rfl
  | cons d rest ih => simp [buildEntries, ih]

theorem jsSlice0_map (n : Int) (l : List α) (f : α → β) :
    jsSlice0 n (l.map f) = (jsSlice0 n l).map f := by
  simp [jsSlice0, List.map_take]

theorem foldl_filterStep_nil (fs : List Filter) :
    fs.foldl filterStep [] = [] := by
  induction fs with
  | nil => rfl
  | cons g rest ih => simpa [filterStep] using ih

theorem foldl_filterStep_eq_nil {f : Filter} (hf : ∀ d, evalFilter d f = false)
    (fs : List Filter) (hmem : f ∈ fs) (docs : List DocFields) :
    fs.foldl filterStep docs = [] := by
  induction fs generalizing docs with
  | nil => cases hmem
  | cons g rest ih =>
    rcases List.mem_cons.mp hmem with hfg | hfr
    · have hstep : filterStep docs g = [] := by
        rw [← hfg]
        simp [filterStep, hf]
      simp only [List.foldl_cons, hstep, foldl_filterStep_nil]
    · exact ih hfr (filterStep docs g)

/-- A `<=` filter whose comparison value is a native date, applied to a
document whose field holds a mock timestamp, compares the two millisecond
instants. -/
theorem evalFilter_le_ts {doc : DocFields} {fld : String} {s ns d : Int}
    (hfld : fld ≠ "__name__") (h : objGet doc fld = .vTimestamp s ns) :
    evalFilter doc ⟨fld, "<=", .vDate d⟩ = decide (tsToMillis s ns ≤ d) := by
  have hf : (fld == "__name__") = false := by simp [hfld]
  simp only [evalFilter, hf, Bool.false_eq_true, if_neg, not_false_iff, h]
  rfl

/-- A filter whose operator is recognized by neither switch keeps no document:
the date branch and the raw branch both fall through to `false`. -/
theorem evalFilter_unrecognized {f : Filter} (hop : f.op ∉ recognizedOps)
    (doc : DocFields) : evalFilter doc f = false := by
  have h1 : f.op ≠ "==" := by intro h; exact hop (by rw [h]; simp [recognizedOps])
  have h2 : f.op ≠ "!=" := by intro h; exact hop (by rw [h]; simp [recognizedOps])
  have h3 : f.op ≠ ">" := by intro h; exact hop (by rw [h]; simp [recognizedOps])
  have h4 : f.op ≠ ">=" := by intro h; exact hop (by rw [h]; simp [recognizedOps])
  have h5 : f.op ≠ "<" := by intro h; exact hop (by rw [h]; simp [recognizedOps])
  have h6 : f.op ≠ "<=" := by intro h; exact hop (by rw [h]; simp [recognizedOps])
  have h7 : f.op ≠ "in" := by intro h; exact hop (by rw [h]; simp [recognizedOps])
  have h8 : f.op ≠ "not-in" := by intro h; exact hop (by rw [h]; simp [recognizedOps])
  have h9 : f.op ≠ "array-contains" := by
    intro h; exact hop (by rw [h]; simp [recognizedOps])
  have h10 : f.op ≠ "array-contains-any" := by
    intro h; exact hop (by rw [h]; simp [recognizedOps])
  have b1 : (f.op == "==") = false := by simp [h1]
  have b2 : (f.op == "!=") = false := by simp [h2]
  have b3 : (f.op == ">") = false := by simp [h3]
  have b4 : (f.op == ">=") = false := by simp [h4]
  have b5 : (f.op == "<") = false := by simp [h5]
  have b6 : (f.op == "<=") = false := by simp [h6]
  have b7 : (f.op == "in") = false := by simp [h7]
  have b8 : (f.op == "not-in") = false := by simp [h8]
  have b9 : (f.op == "array-contains") = false := by simp [h9]
  have b10 : (f.op == "array-contains-any") = false := by simp [h10]
  simp only [evalFilter, b1, b2, b3, b4, b5, b6, b7, b8, b9, b10,
    Bool.false_eq_true, if_false, ite_self]

/-! ## Handle memoization lemmas -/

theorem getDocMock_lookup (ms : MockState) (cp id : String) :
    assocLookup ((getDocMock ms cp id).2).docMocks (cp ++ "/" ++ id)
      = some (getDocMock ms cp id).1 := by
  unfold getDocMock
  cases hl : assocLookup ms.docMocks (cp ++ "/" ++ id) with
  | some h => simp only [hl]
  | none =>
    simp only [hl]
    rw [assocLookup_append_right hl]
    simp [assocLookup]

theorem getDocMock_of_lookup {ms : MockState} {cp id : String} {h : Nat}
    (hl : assocLookup ms.docMocks (cp ++ "/" ++ id) = some h) :
    getDocMock ms cp id = (h, ms) := by
  simp only [getDocMock, hl]

theorem getDocMock_preserves {ms : MockState} {p : String} {h : Nat}
    (hl : assocLookup ms.docMocks p = some h) (cp id : String) :
    assocLookup ((getDocMock ms cp id).2).docMocks p = some h := by
  unfold getDocMock
  cases hl2 : assocLookup ms.docMocks (cp ++ "/" ++ id) with
  | some h2 => simp only [hl2]; exact hl
  | none =>
    simp only [hl2]
    exact assocLookup_append_left hl

/-- A second request for the same address returns the same handle and leaves
the registry unchanged. -/
theorem getDocMock_idem (ms : MockState) (cp id : String) :
    getDocMock ((getDocMock ms cp id).2) cp id
      = ((getDocMock ms cp id).1, (getDocMock ms cp id).2) :=
  getDocMock_of_lookup (getDocMock_lookup ms cp id)

theorem buildEntries_preserves {ms : MockState} {p : String} {h : Nat} (cp : String)
    (hl : assocLookup ms.docMocks p = some h) (l : List DocFields) :
    assocLookup ((buildEntries cp ms l).2).docMocks p = some h := by
  induction l generalizing ms with
  | nil => simpa [buildEntries] using hl
  | cons d rest ih =>
    simp only [buildEntries]
    exact ih (getDocMock_preserves hl cp (jsToStr (objGet d "id")))

/-- Every snapshot entry whose id stringifies to an already-registered handle
path carries exactly that handle. -/
theorem buildEntries_ref {cp : String} {h : Nat} {id₀ : String}
    (l : List DocFields) (ms : MockState)
    (hl : assocLookup ms.docMocks (cp ++ "/" ++ id₀) = some h) :
    ∀ e ∈ (buildEntries cp ms l).1, jsToStr e.id = id₀ → e.ref = h := by
  induction l generalizing ms with
  | nil => intro e he; cases he
  | cons d rest ih =>
    intro e he hid
    simp only [buildEntries, List.mem_cons] at he
    rcases he with hhead | htail
    · subst hhead
      simp only at hid ⊢
      rw [hid, getDocMock_of_lookup hl]
    · exact ih _ (getDocMock_preserves hl cp (jsToStr (objGet d "id"))) e htail hid

/-! ## Claim theorems -/

/-- C1: over documents A,B,C carrying `order` = 3,1,2, the chain
`orderBy('order','asc').limit(2).get()` returns exactly B then C; and for
every store, filter list, ordering directive and limit, the limited query's
ids are the `slice(0, n)` of the unlimited query's ids — the limit truncates
only after the ordering directive has sorted the filtered set, never
before. -/
theorem c1_limit_after_order :
    (((evalQueryGet
          ⟨[("col", [("A", [("order", .vNum 3)]),
                     ("B", [("order", .vNum 1)]),
                     ("C", [("order", .vNum 2)])])], [], 0⟩
          "col" ⟨[], some 2, some ⟨"order", "asc"⟩⟩).1.docs.map (fun e => e.id))
        = [.vStr "B", .vStr "C"])
    ∧ ∀ (ms : MockState) (cp : String) (fs : List Filter)
        (ob : Option OrderByDirective) (n : Int),
        ((evalQueryGet ms cp ⟨fs, some n, ob⟩).1.docs.map (fun e => e.id))
          = jsSlice0 n ((evalQueryGet ms cp ⟨fs, none, ob⟩).1.docs.map (fun e => e.id)) := by
  constructor
  · rfl
  · intro ms cp fs ob n
    simp only [evalQueryGet]
    rw [buildEntries_map_id, buildEntries_map_id, ← jsSlice0_map]

/-- C3 (code bug): a `!=` filter where both the stored field value and the
comparison value are date-interpretable never keeps a document, even when
the two instants differ — the date branch of the filter has no `!=` case
and its fall-through drops the document.  Here the document's timestamp is
1000 ms, the compared native date 2000 ms, the instants differ, and yet the
query returns no documents. -/
theorem c3_neq_on_dates_matches_nothing :
    ((evalQueryGet ⟨[("c", [("d1", [("eventDate", .vTimestamp 1 0)])])], [], 0⟩ "c"
        ⟨[⟨"eventDate", "!=", .vDate 2000⟩], none, none⟩).1.size = 0)
    ∧ tsToMillis 1 0 ≠ (2000 : Int) := by
  exact ⟨rfl, by decide⟩

/-- C5: on a document handle, `set(A); set(B, {merge:true})` stores exactly
the shallow union of A and B with B's keys winning on conflict, and
`set(A); set(B)` without merge stores exactly B. -/
theorem c5_merge_law (st : Store) (cp id : String) (A B : DocFields) :
    (storeGetDoc (docSet (docSet st cp id A false) cp id B true) cp id
        = some (objSpread A B)
      ∧ ∀ k, objGet (objSpread A B) k
          = if objContains B k then objGet B k else objGet A k)
    ∧ storeGetDoc (docSet (docSet st cp id A false) cp id B false) cp id = some B := by
  generalize hg : docSet st cp id A false = st1
  have hA : storeGetDoc st1 cp id = some A := by
    rw [← hg]
    unfold docSet
    simp only [Bool.false_eq_true, if_false]
    exact storeGetDoc_storeSetDoc _ cp id A
  have hAe : storeGetDoc (storeEnsureCollection st1 cp) cp id = some A := by
    rw [storeGetDoc_storeEnsureCollection]; exact hA
  refine ⟨⟨?_, fun k => objGet_objSpread A B k⟩, ?_⟩
  · simp [docSet, hAe, storeGetDoc_storeSetDoc]
  · simp [docSet, storeGetDoc_storeSetDoc]

/-- C6 (code bug): enqueueing `batch.delete` on the handle for document
`post1` of subcollection `users/user1/posts` and committing does not delete
that document — `commit()` re-splits the handle's path `users/user1/posts/post1`
and keeps only the first two segments, so it deletes the top-level document
`users/user1` instead and leaves the subcollection document in place. -/
theorem c6_batch_delete_wrong_target :
    (storeGetDoc (batchCommit
          [("users", [("user1", [("n", .vNum 1)])]),
           ("users/user1/posts", [("post1", [("t", .vNum 2)])])]
          [.bdelete (subCollectionPath "users" "user1" "posts" ++ "/" ++ "post1")]).1
        "users/user1/posts" "post1" = some [("t", .vNum 2)])
    ∧ (storeGetDoc (batchCommit
          [("users", [("user1", [("n", .vNum 1)])]),
           ("users/user1/posts", [("post1", [("t", .vNum 2)])])]
          [.bdelete (subCollectionPath "users" "user1" "posts" ++ "/" ++ "post1")]).1
        "users" "user1" = none) := by
  exact ⟨rfl, rfl⟩

/-- C7 counterexample: the claim "a later mutation does not change what
`s.data()` returns" fails — a document snapshot's `data` is a live closure
over the store.  For a document `a/b` starting at `{x:1}`, after `set({x:2})`
the snapshot taken before the write reads `{x:2}`, not its read-time
content. -/
theorem c7_snapshot_data_changes_after_write :
    ¬ (snapData ((docGet ⟨[("a", [("b", [("x", .vNum 1)])])], [], 0⟩ "a" "b").1)
          (docSet [("a", [("b", [("x", .vNum 1)])])] "a" "b" [("x", .vNum 2)] false)
        = snapData ((docGet ⟨[("a", [("b", [("x", .vNum 1)])])], [], 0⟩ "a" "b").1)
          [("a", [("b", [("x", .vNum 1)])])]) := by
  intro h
  simp [snapData, docGet, docSet, storeGetDoc, storeSetDoc, storeModifyAt,
    storeEnsureCollection, assocSet, assocContains, assocLookup, getDocMock] at h

/-- C7 amended: a document snapshot's `exists` is computed when `get()` runs
and no later mutation changes it, but `data()` re-reads the store when it is
invoked: after any sequence of later mutations (through handles or batches)
it returns the document's then-current content, not the content at read
time. -/
theorem c7_snapshot_exists_fixed_data_live (ms : MockState) (cp id : String)
    (muts : List StoreMutation) :
    ((docGet ms cp id).1.exists_ = (storeGetDoc ms.dbData cp id).isSome)
    ∧ snapData (docGet ms cp id).1 (applyMutations ms.dbData muts)
        = storeGetDoc (applyMutations ms.dbData muts) cp id :=
  ⟨rfl, rfl⟩

/-- C2: against a collection whose three documents hold mock timestamps for
yesterday, today and tomorrow in field `eventDate`, the query
`where('eventDate','<=', today)` with a native date compares millisecond
instants after coercing both sides to dates, and returns exactly the
yesterday and today documents. -/
theorem c2_date_aware_le (ms : MockState) (cp i1 i2 i3 : String)
    (A1 A2 A3 : DocFields) (s1 n1 s2 n2 s3 n3 d : Int)
    (hst : storeGetCollection ms.dbData cp = [(i1, A1), (i2, A2), (i3, A3)])
    (h1 : objGet A1 "eventDate" = .vTimestamp s1 n1)
    (h2 : objGet A2 "eventDate" = .vTimestamp s2 n2)
    (h3 : objGet A3 "eventDate" = .vTimestamp s3 n3)
    (hid1 : objContains A1 "id" = false) (hid2 : objContains A2 "id" = false)
    (hm1 : tsToMillis s1 n1 = d - 86400000)
    (hm2 : tsToMillis s2 n2 = d)
    (hm3 : tsToMillis s3 n3 = d + 86400000) :
    ((evalQueryGet ms cp ⟨[⟨"eventDate", "<=", .vDate d⟩], none, none⟩).1.docs.map
        (fun e => e.id)) = [.vStr i1, .vStr i2] := by
  have hne : ("eventDate" : String) ≠ "__name__" := by decide
  have hni : ("eventDate" : String) ≠ "id" := by decide
  have e1 : evalFilter (mkDocObj i1 A1) ⟨"eventDate", "<=", .vDate d⟩ = true := by
    rw [evalFilter_le_ts hne (by rw [objGet_mkDocObj_of_ne _ _ hni]; exact h1), hm1]
    simp only [decide_eq_true_eq]
    omega
  have e2 : evalFilter (mkDocObj i2 A2) ⟨"eventDate", "<=", .vDate d⟩ = true := by
    rw [evalFilter_le_ts hne (by rw [objGet_mkDocObj_of_ne _ _ hni]; exact h2), hm2]
    simp only [decide_eq_true_eq]
    omega
  have e3 : evalFilter (mkDocObj i3 A3) ⟨"eventDate", "<=", .vDate d⟩ = false := by
    rw [evalFilter_le_ts hne (by rw [objGet_mkDocObj_of_ne _ _ hni]; exact h3), hm3]
    simp only [decide_eq_false_iff_not]
    omega
  simp only [evalQueryGet, hst, List.map_cons, List.map_nil, List.foldl_cons,
    List.foldl_nil, filterStep, List.filter_cons, List.filter_nil, e1, e2, e3,
    if_true, Bool.false_eq_true, if_false]
  rw [buildEntries_map_id]
  simp only [List.map_cons, List.map_nil,
    objGet_mkDocObj_id i1 hid1, objGet_mkDocObj_id i2 hid2]

/-- C4: a query containing a filter whose operator is none of the recognized
operator strings returns an empty snapshot (`size` 0, `empty` true) no matter
what the store holds or what the other directives are — the unrecognized
operator matches no documents. -/
theorem c4_unrecognized_op_fails_closed (ms : MockState) (cp : String)
    (q : QueryOptions) (f : Filter) (hmem : f ∈ q.filters)
    (hop : f.op ∉ recognizedOps) :
    (evalQueryGet ms cp q).1.size = 0 ∧ (evalQueryGet ms cp q).1.empty = true := by
  have hnil : q.filters.foldl filterStep
      ((storeGetCollection ms.dbData cp).map (fun p => mkDocObj p.1 p.2)) = [] :=
    foldl_filterStep_eq_nil (evalFilter_unrecognized hop) q.filters hmem _
  simp only [evalQueryGet, hnil]
  cases hob : q.orderBy with
  | none =>
    cases hlim : q.limit with
    | none => simp [buildEntries]
    | some n => simp [jsSlice0, buildEntries]
  | some ob =>
    cases hlim : q.limit with
    | none => simp [stableSortBy, buildEntries]
    | some n => simp [stableSortBy, jsSlice0, buildEntries]

/-- C8: requesting the handle for the same collection path and document id
twice yields the identity-same handle (same token, unchanged registry), and
any query evaluated over that collection path attaches exactly that handle
as the `ref` of the result entry whose id is that document id. -/
theorem c8_reference_stability (ms : MockState) (p id : String) :
    (collectionDoc ((collectionDoc ms p id).2) p id
        = ((collectionDoc ms p id).1, (collectionDoc ms p id).2))
    ∧ ∀ (q : QueryOptions) (e : QueryEntry),
        e ∈ (evalQueryGet (collectionDoc ms p id).2 p q).1.docs →
        e.id = .vStr id → e.ref = (collectionDoc ms p id).1 := by
  constructor
  · exact getDocMock_idem ms p id
  · intro q e he hid
    have hl : assocLookup ((collectionDoc ms p id).2).docMocks (p ++ "/" ++ id)
        = some (collectionDoc ms p id).1 := getDocMock_lookup ms p id
    simp only [evalQueryGet] at he
    exact buildEntries_ref _ _ hl e he (by rw [hid]; rfl)

/-- C8 witness: on a mock seeded with `p/x ↦ {a:1}`, the unfiltered query
over `p` yields the entry for `x` carrying the very handle token that
`collection('p').doc('x')` created. -/
theorem c8_reference_stability_witness :
    ((⟨JsValue.vStr "x", [("a", JsValue.vNum 1)], true, 0⟩ : QueryEntry) ∈
        (evalQueryGet
          (collectionDoc ⟨[("p", [("x", [("a", JsValue.vNum 1)])])], [], 0⟩ "p" "x").2
          "p" ⟨[], none, none⟩).1.docs)
    ∧ (⟨JsValue.vStr "x", [("a", JsValue.vNum 1)], true, 0⟩ : QueryEntry).ref
        = (collectionDoc ⟨[("p", [("x", [("a", JsValue.vNum 1)])])], [], 0⟩ "p" "x").1 := by
  have hmem : (⟨JsValue.vStr "x", [("a", JsValue.vNum 1)], true, 0⟩ : QueryEntry) ∈
      (evalQueryGet
        (collectionDoc ⟨[("p", [("x", [("a", JsValue.vNum 1)])])], [], 0⟩ "p" "x").2
        "p" ⟨[], none, none⟩).1.docs := List.Mem.head _
  exact ⟨hmem,
    (c8_reference_stability ⟨[("p", [("x", [("a", JsValue.vNum 1)])])], [], 0⟩ "p" "x").2
      ⟨[], none, none⟩ _ hmem rfl⟩

/-- C9: the top-level `doc(path)` fails (synchronously, before any deferred
result exists — modelled by `none`) exactly when splitting the path on `/`
leaves a missing or empty first or second segment, and otherwise returns a
handle. -/
theorem c9_doc_path_validation (ms : MockState) (path : String) :
    (docTopLevel ms path).isSome
      ↔ (match splitSlash path with
         | c :: d :: _ => c ≠ "" ∧ d ≠ ""
         | _ => False) := by
  unfold docTopLevel resolveTopDocPath
  cases h : splitSlash path with
  | nil => simp
  | cons c rest =>
    cases rest with
    | nil => simp
    | cons d rest2 =>
      by_cases hc : c = ""
      · simp [hc]
      · by_cases hd : d = ""
        · simp [hc, hd]
        · simp [hc, hd]

/-- C10: a path with three or more non-empty segments does not make the
top-level `doc(path)` fail: every segment past the second is silently
ignored, the returned handle is the one for (first segment, second segment),
and it is identity-equal to the handle `doc` returns for just the first two
segments joined by `/`. -/
theorem c10_doc_ignores_extra_segments (ms : MockState) (path path₂ a b : String)
    (rest : List String) (hsplit : splitSlash path = a :: b :: rest)
    (ha : a ≠ "") (hb : b ≠ "") (_hrest : rest ≠ [])
    (hsplit₂ : splitSlash path₂ = [a, b]) :
    resolveTopDocPath path = some (a, b)
    ∧ docTopLevel ms path = some (getDocMock ms a b)
    ∧ docTopLevel ((getDocMock ms a b).2) path₂
        = some ((getDocMock ms a b).1, (getDocMock ms a b).2) := by
  have hres : resolveTopDocPath path = some (a, b) := by
    unfold resolveTopDocPath
    rw [hsplit]
    simp [ha, hb]
  have hres₂ : resolveTopDocPath path₂ = some (a, b) := by
    unfold resolveTopDocPath
    rw [hsplit₂]
    simp [ha, hb]
  refine ⟨hres, ?_, ?_⟩
  · unfold docTopLevel
    rw [hres]
  · unfold docTopLevel
    simp only [hres₂]
    rw [getDocMock_idem]

/-- C10 witness: `doc('users/user1/posts/post1')` resolves to the address
`(users, user1)` and returns the same handle as `doc('users/user1')`. -/
theorem c10_doc_ignores_extra_segments_witness :
    resolveTopDocPath "users/user1/posts/post1" = some ("users", "user1")
    ∧ docTopLevel ⟨[], [], 0⟩ "users/user1/posts/post1"
        = some (getDocMock ⟨[], [], 0⟩ "users" "user1")
    ∧ docTopLevel ((getDocMock ⟨[], [], 0⟩ "users" "user1").2) "users/user1"
        = some ((getDocMock ⟨[], [], 0⟩ "users" "user1").1,
                (getDocMock ⟨[], [], 0⟩ "users" "user1").2) :=
  c10_doc_ignores_extra_segments ⟨[], [], 0⟩ "users/user1/posts/post1" "users/user1"
    "users" "user1" ["posts", "post1"] (by rfl) (by decide) (by decide)
    (by decide) (by rfl)

/-- C2 witness: a concrete store with timestamps one day before, at, and one
day after `d` = 1 700 000 000 000 ms. -/
theorem c2_date_aware_le_witness :
    ((evalQueryGet
        ⟨[("ev", [("y", [("eventDate", .vTimestamp 1699913600 0)]),
                  ("t", [("eventDate", .vTimestamp 1700000000 0)]),
                  ("m", [("eventDate", .vTimestamp 1700086400 0)])])], [], 0⟩
        "ev" ⟨[⟨"eventDate", "<=", .vDate 1700000000000⟩], none, none⟩).1.docs.map
      (fun e => e.id)) = [.vStr "y", .vStr "t"] :=
  c2_date_aware_le
    ⟨[("ev", [("y", [("eventDate", .vTimestamp 1699913600 0)]),
              ("t", [("eventDate", .vTimestamp 1700000000 0)]),
              ("m", [("eventDate", .vTimestamp 1700086400 0)])])], [], 0⟩
    "ev" "y" "t" "m" _ _ _ 1699913600 0 1700000000 0 1700086400 0 1700000000000
    rfl rfl rfl rfl rfl rfl (by decide) (by decide) (by decide)

/-- C4 witness: the operator `nonexistent-op` is unrecognized and an
otherwise-matchable store yields an empty snapshot. -/
theorem c4_unrecognized_op_fails_closed_witness :
    ((⟨"order", "nonexistent-op", JsValue.vNum 3⟩ : Filter) ∈
        ([⟨"order", "nonexistent-op", JsValue.vNum 3⟩] : List Filter))
    ∧ ("nonexistent-op" ∉ recognizedOps)
    ∧ ((evalQueryGet ⟨[("col", [("A", [("order", JsValue.vNum 3)])])], [], 0⟩ "col"
          ⟨[⟨"order", "nonexistent-op", JsValue.vNum 3⟩], none, none⟩).1.size = 0
      ∧ (evalQueryGet ⟨[("col", [("A", [("order", JsValue.vNum 3)])])], [], 0⟩ "col"
          ⟨[⟨"order", "nonexistent-op", JsValue.vNum 3⟩], none, none⟩).1.empty = true) :=
  ⟨List.Mem.head _, by decide,
    c4_unrecognized_op_fails_closed ⟨[("col", [("A", [("order", JsValue.vNum 3)])])], [], 0⟩
      "col" ⟨[⟨"order", "nonexistent-op", JsValue.vNum 3⟩], none, none⟩
      ⟨"order", "nonexistent-op", JsValue.vNum 3⟩ (List.Mem.head _) (by decide)⟩

end FirestoreMock
